import Mathlib

/-!
Verification of the pre-compressed static-asset negotiation and delivery
engine of the `@astrojs/node` adapter.

The repository ships the adapter's configuration types
(`src/packages/integrations/node/src/types.ts`: `Compression`,
`UserOptions.compression`) and the integration tests exercising the engine,
but the engine's implementation itself (the Encoding Negotiator and the
Variant Resolver & Responder) is not among the provided source files.
Following the specification (spec.md §§3–4, 6–7), the engine is modelled
here and the spec's testable properties are proved against the model.
-/

/-- A configured compression rule: an encoding token matched against the
client's `Accept-Encoding` declaration and a file extension appended to a
logical path to locate the pre-compressed variant on disk.
Mirrors the `Compression` type of `types.ts` (the standard/custom union
collapses to a pair of strings at runtime). -/
structure CompressionRule where
  encoding : String
  extension : String
deriving DecidableEq, Repr

/-- A filesystem probe failure other than absence (spec §7 FilesystemFault):
permission error or I/O error. -/
inductive FsError where
  | permission
  | ioFault
deriving DecidableEq, Repr

/-- The response this core emits when it serves a file: status, the path of
the body actually served, the optional `Content-Encoding` header, the
optional `Vary` header, and the `Content-Type` header. -/
structure HttpResponse where
  status : Nat
  body : String
  contentEncoding : Option String
  vary : Option String
  contentType : String
deriving DecidableEq, Repr

/-- The outcome of handling one request (spec §4.2): serve a file, forward
to the next handler, or surface a server error. -/
inductive HttpOutcome where
  | serve : HttpResponse → HttpOutcome
  | forward : HttpOutcome
  | serverError : HttpOutcome
deriving DecidableEq, Repr

/-- Modelled from the spec: MIME type inferred from a path's extension
(spec §3 StaticAsset: "an inferred MIME type derived from the *original*
(uncompressed) path's extension"). The concrete table is the conventional
one observed in the tests (`text/css`, JavaScript). -/
def mimeOf (ext : String) : String :=
  if ext == "css" then "text/css"
  else if ext == "js" then "text/javascript"
  else if ext == "html" then "text/html"
  else "application/octet-stream"

/-- Modelled from the spec: the extension of a path, i.e. the text after the
last dot. -/
def extOf (p : String) : String :=
  String.mk ((p.data.reverse.takeWhile (fun c => !(c == '.'))).reverse)

/-- Modelled from the spec: `Content-Type` inferred from a logical path. -/
def inferContentType (p : String) : String :=
  mimeOf (extOf p)

/-- ASCII-lowercase a string, character by character. -/
def lowerStr (s : String) : String :=
  String.mk (s.data.map Char.toLower)

/-- Modelled from the spec: whether the client's accepted-encoding token
list contains an encoding token; the comparison is case-insensitive
(spec §4.1: "Matching must be case-insensitive on the encoding token"). -/
def acceptsEnc (accepted : List String) (enc : String) : Bool :=
  accepted.any (fun t => lowerStr t == lowerStr enc)

/-- Modelled from the spec: the Encoding Negotiator, absent from the
provided sources (spec §4.1): iterate the configured rules in order and
return the first whose encoding token the client accepts; `none` when no
rule matches or the rule list is empty. -/
def negotiate (rules : List CompressionRule) (accepted : List String) :
    Option CompressionRule :=
  rules.find? (fun r => acceptsEnc accepted r.encoding)

/-- Modelled from the spec: the `Vary` header intent (spec §4.2 step 1):
set `Vary: Accept-Encoding` exactly when the configured rule list is
non-empty. -/
def varyHeader (rules : List CompressionRule) : Option String :=
  if rules.isEmpty then none else some "Accept-Encoding"

/-- Modelled from the spec: the uncompressed response for a logical path
(spec §4.2 step 3): status 200, no `Content-Encoding`, `Vary` iff rules are
configured, `Content-Type` inferred from the original path. -/
def serveUncompressed (requestPath : String) (rules : List CompressionRule) :
    HttpResponse :=
  { status := 200
    body := requestPath
    contentEncoding := none
    vary := varyHeader rules
    contentType := inferContentType requestPath }

/-- Modelled from the spec: the Variant Resolver & Responder, absent from
the provided sources (spec §4.2). The filesystem is the capability
`fsE : path → Except FsError Bool` (spec §6, §9: existence probing behind a
minimal capability). Probe failures other than absence surface as a server
error (spec §7 FilesystemFault); a missing `requestPath` forwards to the
next handler (spec §4.2 step 4); otherwise the negotiated rule's variant is
probed and served, falling back — without cascading to lower-priority
rules — to the uncompressed original. -/
def respond (requestPath : String) (rules : List CompressionRule)
    (accepted : List String) (fsE : String → Except FsError Bool) :
    HttpOutcome :=
  match fsE requestPath with
  | .error _ => .serverError
  | .ok false => .forward
  | .ok true =>
    match negotiate rules accepted with
    | some rule =>
      match fsE (requestPath ++ rule.extension) with
      | .error _ => .serverError
      | .ok true =>
        .serve
          { status := 200
            body := requestPath ++ rule.extension
            contentEncoding := some rule.encoding
            vary := varyHeader rules
            contentType := inferContentType requestPath }
      | .ok false => .serve (serveUncompressed requestPath rules)
    | none => .serve (serveUncompressed requestPath rules)

/-- Concrete rules and filesystems used to instantiate the theorems below,
mirroring the fixtures of the compression tests. -/
def gzRule : CompressionRule := ⟨"gzip", ".gz"⟩

def brRule : CompressionRule := ⟨"br", ".br"⟩

def fsBoth : String → Except FsError Bool := fun p =>
  .ok (p == "styles.css" || p == "styles.css.gz" || p == "styles.css.br")

def fsPlainOnly : String → Except FsError Bool := fun p =>
  .ok (p == "styles.css")

def fsGzOnly : String → Except FsError Bool := fun p =>
  .ok (p == "styles.css" || p == "styles.css.gz")

/- ### Helper lemmas -/

theorem acceptsEnc_of_mem {accepted : List String} {e : String}
    (h : e ∈ accepted) : acceptsEnc accepted e = true := by
  exact List.any_eq_true.mpr ⟨e, h, by simp⟩

theorem negotiate_cons_of_accepts {A : CompressionRule}
    {rs : List CompressionRule} {accepted : List String}
    (h : acceptsEnc accepted A.encoding = true) :
    negotiate (A :: rs) accepted = some A := by
  unfold negotiate
  exact List.find?_cons_of_pos rs h

theorem varyHeader_of_ne_nil {rules : List CompressionRule}
    (h : rules ≠ []) : varyHeader rules = some "Accept-Encoding" := by
  cases rules with
  | nil => exact absurd rfl h
  | cons a l => rfl

theorem respond_serve_inv (path : String) (rules : List CompressionRule)
    (accepted : List String) (fsE : String → Except FsError Bool)
    (r : HttpResponse)
    (h : respond path rules accepted fsE = .serve r) :
    r.status = 200 ∧ r.vary = varyHeader rules ∧
      r.contentType = inferContentType path := by
  unfold respond at h
  split at h
  · exact absurd h (by simp)
  · exact absurd h (by simp)
  · split at h
    · split at h
      · exact absurd h (by simp)
      · injection h with h'
        subst h'
        exact ⟨rfl, rfl, rfl⟩
      · injection h with h'
        subst h'
        exact ⟨rfl, rfl, rfl⟩
    · injection h with h'
      subst h'
      exact ⟨rfl, rfl, rfl⟩

/- ### Claim theorems -/

/-- C1. Server-side rule order determines preference: for configured rules
`[A, B]` and any client declaration containing both encoding tokens, when
both variant files exist (and the original does), `respond` serves the A
variant with `Content-Encoding = A.encoding`, never B, whatever the order
of the client's tokens. -/
theorem respond_prefers_first_rule (A B : CompressionRule) (path : String)
    (accepted : List String) (fsE : String → Except FsError Bool)
    (hA : A.encoding ∈ accepted) (_hB : B.encoding ∈ accepted)
    (hpath : fsE path = .ok true)
    (hvA : fsE (path ++ A.extension) = .ok true)
    (_hvB : fsE (path ++ B.extension) = .ok true) :
    respond path [A, B] accepted fsE =
      .serve ⟨200, path ++ A.extension, some A.encoding,
        some "Accept-Encoding", inferContentType path⟩ := by
  simp [respond, hpath, negotiate_cons_of_accepts (acceptsEnc_of_mem hA), hvA,
    varyHeader]

theorem respond_prefers_first_rule_witness :
    respond "styles.css" [brRule, gzRule] ["gzip", "br"] fsBoth =
      .serve ⟨200, "styles.css" ++ ".br", some "br",
        some "Accept-Encoding", inferContentType "styles.css"⟩ :=
  respond_prefers_first_rule brRule gzRule "styles.css" ["gzip", "br"]
    fsBoth (by decide) (by decide) rfl rfl rfl

/-- C2. Vary correctness: whenever the configured rule list is non-empty,
every response `respond` produces by serving a static file — compressed
variant or uncompressed fallback — carries `Vary: Accept-Encoding`. -/
theorem respond_vary_accept_encoding (path : String)
    (rules : List CompressionRule) (accepted : List String)
    (fsE : String → Except FsError Bool) (r : HttpResponse)
    (hne : rules ≠ [])
    (h : respond path rules accepted fsE = .serve r) :
    r.vary = some "Accept-Encoding" :=
  ((respond_serve_inv path rules accepted fsE r h).2.1).trans
    (varyHeader_of_ne_nil hne)

theorem respond_vary_accept_encoding_witness :
    (serveUncompressed "styles.css" [gzRule]).vary = some "Accept-Encoding" :=
  respond_vary_accept_encoding "styles.css" [gzRule] ["deflate"] fsGzOnly
    (serveUncompressed "styles.css" [gzRule]) (by simp) rfl

/-- C3. Non-cascading fallback on disk-miss: with at least two configured
rules, all of whose encodings the client accepts, if the first rule's
variant file is absent then `respond` serves the uncompressed original with
no `Content-Encoding`, even though the second rule's variant exists on
disk — it never probes or serves a lower-priority rule's variant. -/
theorem respond_no_cascading_fallback (A B : CompressionRule)
    (rest : List CompressionRule) (path : String) (accepted : List String)
    (fsE : String → Except FsError Bool)
    (hA : A.encoding ∈ accepted) (_hB : B.encoding ∈ accepted)
    (hpath : fsE path = .ok true)
    (hvA : fsE (path ++ A.extension) = .ok false)
    (_hvB : fsE (path ++ B.extension) = .ok true) :
    respond path (A :: B :: rest) accepted fsE =
      .serve ⟨200, path, none, some "Accept-Encoding",
        inferContentType path⟩ := by
  simp [respond, hpath, negotiate_cons_of_accepts (acceptsEnc_of_mem hA), hvA,
    serveUncompressed, varyHeader]

theorem respond_no_cascading_fallback_witness :
    respond "styles.css" [⟨"zstd", ".zst"⟩, gzRule] ["gzip", "zstd"] fsGzOnly =
      .serve ⟨200, "styles.css", none, some "Accept-Encoding",
        inferContentType "styles.css"⟩ :=
  respond_no_cascading_fallback ⟨"zstd", ".zst"⟩ gzRule [] "styles.css"
    ["gzip", "zstd"] fsGzOnly (by decide) (by decide) rfl rfl rfl

/-- C4. No compression configured: with an empty rule list, for every
client declaration, the response has neither `Content-Encoding` nor `Vary`,
and the uncompressed file is served with status 200. -/
theorem respond_no_compression_configured (path : String)
    (accepted : List String) (fsE : String → Except FsError Bool)
    (hpath : fsE path = .ok true) :
    respond path [] accepted fsE =
      .serve ⟨200, path, none, none, inferContentType path⟩ := by
  simp [respond, hpath, negotiate, serveUncompressed, varyHeader,
    List.find?]

theorem respond_no_compression_configured_witness :
    respond "styles.css" [] ["gzip", "deflate", "br"] fsPlainOnly =
      .serve ⟨200, "styles.css", none, none, inferContentType "styles.css"⟩ :=
  respond_no_compression_configured "styles.css" ["gzip", "deflate", "br"]
    fsPlainOnly rfl

/-- C5. Graceful fallback on missing variant: for a single configured rule
whose encoding the client accepts, if the variant file is absent but the
original exists, `respond` serves the uncompressed original with status 200
and no `Content-Encoding` header — never an error outcome. -/
theorem respond_graceful_fallback (A : CompressionRule) (path : String)
    (accepted : List String) (fsE : String → Except FsError Bool)
    (hA : A.encoding ∈ accepted)
    (hpath : fsE path = .ok true)
    (hv : fsE (path ++ A.extension) = .ok false) :
    respond path [A] accepted fsE =
      .serve ⟨200, path, none, some "Accept-Encoding",
        inferContentType path⟩ := by
  simp [respond, hpath, negotiate_cons_of_accepts (acceptsEnc_of_mem hA), hv,
    serveUncompressed, varyHeader]

theorem respond_graceful_fallback_witness :
    respond "styles.css" [gzRule] ["gzip"] fsPlainOnly =
      .serve ⟨200, "styles.css", none, some "Accept-Encoding",
        inferContentType "styles.css"⟩ :=
  respond_graceful_fallback gzRule "styles.css" ["gzip"] fsPlainOnly
    (by decide) rfl rfl

/- ### Further helper lemmas -/

theorem any_lowerStr (l : List String) (e : String) :
    l.any (fun t => lowerStr t == lowerStr e) =
      (l.map lowerStr).any (fun t => t == lowerStr e) := by
  induction l with
  | nil => rfl
  | cons a l ih => simp only [List.any_cons, List.map_cons, ih]

theorem acceptsEnc_congr {accepted accepted' : List String} (e : String)
    (h : accepted.map lowerStr = accepted'.map lowerStr) :
    acceptsEnc accepted e = acceptsEnc accepted' e := by
  unfold acceptsEnc
  rw [any_lowerStr, any_lowerStr, h]

/-- C6. Content-Type stability: whenever `respond` serves a response for a
logical path — compressed variant or uncompressed original, under any rule
lists, client declarations and filesystems — the `Content-Type` is the one
inferred from the original path, hence identical across the two runs. -/
theorem respond_content_type_stable (path : String)
    (rules₁ rules₂ : List CompressionRule)
    (accepted₁ accepted₂ : List String)
    (fs₁ fs₂ : String → Except FsError Bool) (r₁ r₂ : HttpResponse)
    (h₁ : respond path rules₁ accepted₁ fs₁ = .serve r₁)
    (h₂ : respond path rules₂ accepted₂ fs₂ = .serve r₂) :
    r₁.contentType = inferContentType path ∧
      r₁.contentType = r₂.contentType :=
  ⟨(respond_serve_inv path rules₁ accepted₁ fs₁ r₁ h₁).2.2,
    ((respond_serve_inv path rules₁ accepted₁ fs₁ r₁ h₁).2.2).trans
      ((respond_serve_inv path rules₂ accepted₂ fs₂ r₂ h₂).2.2).symm⟩

theorem respond_content_type_stable_witness :
    (HttpResponse.mk 200 ("styles.css" ++ ".gz") (some "gzip")
        (some "Accept-Encoding") (inferContentType "styles.css")).contentType =
      inferContentType "styles.css" ∧
    (HttpResponse.mk 200 ("styles.css" ++ ".gz") (some "gzip")
        (some "Accept-Encoding") (inferContentType "styles.css")).contentType =
      (serveUncompressed "styles.css" []).contentType :=
  respond_content_type_stable "styles.css" [gzRule] [] ["gzip"] ["gzip"]
    fsGzOnly fsGzOnly _ _ rfl rfl

/-- C7. Case-insensitive negotiation: `negotiate` returns the same result
on two client declarations whose tokens differ only in letter case (token
by token), so a rule is selected if and only if it is selected after
arbitrary re-casing of the client's tokens. -/
theorem negotiate_case_insensitive (rules : List CompressionRule)
    (accepted accepted' : List String)
    (h : accepted.map lowerStr = accepted'.map lowerStr) :
    negotiate rules accepted = negotiate rules accepted' := by
  unfold negotiate
  have hp : (fun (r : CompressionRule) => acceptsEnc accepted r.encoding) =
      (fun (r : CompressionRule) => acceptsEnc accepted' r.encoding) :=
    funext fun r => acceptsEnc_congr r.encoding h
  rw [hp]

theorem negotiate_case_insensitive_witness :
    negotiate [brRule, gzRule] ["GZip", "BR"] =
      negotiate [brRule, gzRule] ["gzip", "br"] :=
  negotiate_case_insensitive [brRule, gzRule] ["GZip", "BR"] ["gzip", "br"]
    rfl

/-- C8. Idempotence/determinism: `respond` is a function of its inputs —
two runs with the same request path, rule list and accepted-encoding set
against extensionally equal filesystems produce identical responses. -/
theorem respond_deterministic (path : String)
    (rules : List CompressionRule) (accepted : List String)
    (fs₁ fs₂ : String → Except FsError Bool)
    (h : ∀ p, fs₁ p = fs₂ p) :
    respond path rules accepted fs₁ = respond path rules accepted fs₂ := by
  rw [funext h]

theorem respond_deterministic_witness :
    respond "styles.css" [gzRule] ["gzip"] fsGzOnly =
      respond "styles.css" [gzRule] ["gzip"]
        (fun p => .ok (p == "styles.css.gz" || p == "styles.css")) :=
  respond_deterministic "styles.css" [gzRule] ["gzip"] fsGzOnly
    (fun p => .ok (p == "styles.css.gz" || p == "styles.css"))
    (fun p => by simp [fsGzOnly, Bool.or_comm])

/-- C9. Filesystem fault surfacing: `respond` yields the server-error
outcome exactly when a filesystem probe it performs fails for a reason
other than absence — either the probe of the request path itself, or the
probe of the negotiated rule's variant path; it never silently serves
other content on such a fault. -/
theorem respond_serverError_iff (path : String)
    (rules : List CompressionRule) (accepted : List String)
    (fsE : String → Except FsError Bool) :
    respond path rules accepted fsE = .serverError ↔
      ((∃ e, fsE path = .error e) ∨
       (fsE path = .ok true ∧
         ∃ rule e, negotiate rules accepted = some rule ∧
           fsE (path ++ rule.extension) = .error e)) := by
  unfold respond
  rcases h₁ : fsE path with e | b
  · simp [h₁]
  · cases b with
    | false => simp [h₁]
    | true =>
      rcases h₂ : negotiate rules accepted with _ | rule
      · simp [h₂]
      · rcases h₃ : fsE (path ++ rule.extension) with e | b'
        · simp [h₂, h₃]
        · cases b' with
          | false => simp [h₂, h₃]
          | true => simp [h₂, h₃]

/-- C10. Non-static routes are unaffected by compression configuration:
when the request path does not map to an existing static file, `respond`
forwards to the next handler, and the outcome is the same as with an empty
rule list (compression disabled), for every rule list and declaration. -/
theorem respond_forwards_nonstatic (path : String)
    (rules : List CompressionRule) (accepted : List String)
    (fsE : String → Except FsError Bool)
    (h : fsE path = .ok false) :
    respond path rules accepted fsE = .forward ∧
      respond path rules accepted fsE = respond path [] accepted fsE := by
  constructor
  · unfold respond
    rw [h]
  · simp [respond, h]

theorem respond_forwards_nonstatic_witness :
    respond "ssr-route" [gzRule] ["gzip"] fsGzOnly = .forward ∧
      respond "ssr-route" [gzRule] ["gzip"] fsGzOnly =
        respond "ssr-route" [] ["gzip"] fsGzOnly :=
  respond_forwards_nonstatic "ssr-route" [gzRule] ["gzip"] fsGzOnly rfl
